import Mathlib

/-!
Verification of the span-anonymization engine (`anonymize.py`).

Shallow embedding conventions:
* Python strings are modelled as `List Char` (`Str`); character-class
  predicates (`str.isnumeric`, `str.isalpha`, `str.isupper`, `str.islower`,
  `str.upper`, `str.lower`, `str.capitalize`) are modelled on the ASCII
  range via `Char.isDigit`, `Char.isAlpha`, `Char.isUpper`, `Char.isLower`,
  `Char.toUpper`, `Char.toLower` — the source's replacement alphabets
  (`string.ascii_lowercase`, `string.ascii_uppercase`, `"0123456789"`) are
  ASCII, so this is the character model of the program.
* Python step-1 slicing `t[a:b]` (with clamping and negative-index
  wrap-around) is `pySlice`; `t[i]` on an empty string raises, so code
  reading `text[0]` is modelled with `Option` (`none` = the raised
  `IndexError`).
* The global `random` module and the external collaborators (`faker`,
  `babel`) are modelled by an explicit `Oracle`: a pure random source
  `g : Nat → Nat` (the k-th draw) and one pure function per external
  generator call, all indexed by a call counter that every stochastic or
  external call advances by one.  All definitions thread this counter
  explicitly, so every behaviour of the random source / generators is a
  choice of `Oracle`.
* Python dict `Span` records (`span["start"]`, `span["end"]`,
  `span["label"]`) become the structure `Span`; coordinates are `Int`
  because `anonymizeSpans` adds a (possibly negative) running offset to
  them in place.
-/

/-- Python strings, as lists of characters. -/
abbrev Str := List Char

/-- The random source: `g k` is the k-th random draw of the run. -/
abbrev RandGen := Nat → Nat

/-- string.ascii_lowercase -/
def lowers : Str := "abcdefghijklmnopqrstuvwxyz".data

/-- string.ascii_uppercase -/
def uppers : Str := "ABCDEFGHIJKLMNOPQRSTUVWXYZ".data

/-- numbers = "0123456789" -/
def numbers : Str := "0123456789".data

/-- random.choice(s): pick the element indexed by the next draw (the
alphabets used by the source are non-empty so the default is unreachable). -/
def randChoice (g : RandGen) (s : Str) (k : Nat) : Char × Nat :=
  (s.getD (g k % s.length) '?', k + 1)

/-- random.randint(a, b) (both ends inclusive). -/
def randint (g : RandGen) (a b : Nat) (k : Nat) : Nat × Nat :=
  (a + g k % (b + 1 - a), k + 1)

/-- Normalize one Python slice index against a string of length `n`:
negative indices count from the end (clamped at 0), non-negative ones are
clamped at `n`. -/
def pyIdx (n : Nat) (i : Int) : Nat :=
  if i < 0 then (i + n).toNat else min i.toNat n

/-- Python slice `t[a:b]` (step 1). -/
def pySlice (t : Str) (a b : Int) : Str :=
  (t.take (pyIdx t.length b)).drop (pyIdx t.length a)

/-- Nat-indexed segment of a list: the characters in `[a, b)`. -/
def seg (t : Str) (a b : Nat) : Str := (t.take b).drop a

/-- Python str.isnumeric on the ASCII model ("".isnumeric() is False). -/
def pyIsNumericStr (s : Str) : Bool := !s.isEmpty && s.all Char.isDigit

/-- Python str.isupper: at least one cased character and no lowercase one. -/
def pyIsUpperStr (s : Str) : Bool :=
  s.any Char.isAlpha && s.all (fun c => !c.isAlpha || c.isUpper)

/-- Python str.islower: at least one cased character and no uppercase one. -/
def pyIsLowerStr (s : Str) : Bool :=
  s.any Char.isAlpha && s.all (fun c => !c.isAlpha || c.isLower)

/-- Python str.upper (ASCII model). -/
def pyUpper (s : Str) : Str := s.map Char.toUpper

/-- Python str.lower (ASCII model). -/
def pyLower (s : Str) : Str := s.map Char.toLower

/-- Python str.capitalize: first character upper-cased, the rest
lower-cased; the empty string is unchanged. -/
def pyCapitalize : Str → Str
  | [] => []
  | c :: cs => c.toUpper :: cs.map Char.toLower

/-- `_random_replace` (anonymize.py lines 35-47): per character, a digit
becomes a random digit, an upper-case letter a random upper-case letter,
any other alphabetic character a random lower-case letter, and everything
else passes through; the call counter advances once per random draw. -/
def _random_replace (g : RandGen) : Str → Nat → Str × Nat
  | [], k => ([], k)
  | c :: cs, k =>
    if c.isDigit then
      let (d, k1) := randChoice g numbers k
      let (rest, k2) := _random_replace g cs k1
      (d :: rest, k2)
    else if c.isAlpha then
      if c.isUpper then
        let (d, k1) := randChoice g uppers k
        let (rest, k2) := _random_replace g cs k1
        (d :: rest, k2)
      else
        let (d, k1) := randChoice g lowers k
        let (rest, k2) := _random_replace g cs k1
        (d :: rest, k2)
    else
      let (rest, k2) := _random_replace g cs k
      (c :: rest, k2)

/-- The engine's external collaborators: the random source plus one pure
function per faker/babel call, indexed by the call counter. `dateNumeric k`
is `strftime("%d/%m/%Y")` and `dateLong k` the babel long format of the
k-th `date_time_between` draw. -/
structure Oracle where
  g : RandGen
  fakeName : Nat → Str
  fakeCity : Nat → Str
  fakeStreetAddress : Nat → Str
  dateNumeric : Nat → Str
  dateLong : Nat → Str

/-- A span record: `span["start"]`, `span["end"]`, `span["label"]`. -/
structure Span where
  start : Int
  «end» : Int
  label : String
deriving DecidableEq, Repr

/-- `AllAnonym._replaceDefault` = `_random_replace`. -/
def _replaceDefault (g : RandGen) (text : Str) (k : Nat) : Option (Str × Nat) :=
  some (_random_replace g text k)

/-- `AllAnonym._format_string` (lines 267-275): dispatch on the case of the
original's first characters; `text[0]` on an empty original raises
(`none`). -/
def _format_string : Str → Str → Option Str
  | [], _ => none
  | c0 :: rest, replacement =>
    some (if c0.isUpper then
            match rest with
            | c1 :: _ => if c1.isUpper then pyUpper replacement else pyCapitalize replacement
            | [] => pyCapitalize replacement
          else replacement)

/-- `AllAnonym._replacePER`: a faker name (one counter tick) re-cased by
`_format_string`. -/
def _replacePER (o : Oracle) (text : Str) (k : Nat) : Option (Str × Nat) :=
  match _format_string text (o.fakeName k) with
  | none => none
  | some r => some (r, k + 1)

/-- `AllAnonym._replaceLOC`: street address if the original contains a
digit, city otherwise, then matched to the original's upper/lower style. -/
def _replaceLOC (o : Oracle) (text : Str) (k : Nat) : Option (Str × Nat) :=
  let address := if text.any Char.isDigit then o.fakeStreetAddress k else o.fakeCity k
  some (if pyIsUpperStr text then pyUpper address
        else if pyIsLowerStr text then pyLower address
        else address, k + 1)

/-- `AllAnonym._replaceTELEPHONE`: `text[:1] + _replaceDefault(text[1:])`. -/
def _replaceTELEPHONE (g : RandGen) (text : Str) (k : Nat) : Option (Str × Nat) :=
  let (r, k1) := _random_replace g (text.drop 1) k
  some (text.take 1 ++ r, k1)

/-- `AllAnonym._replacePHONE_CL`: two randint(1000, 9999) draws formatted
as `+56 9 {a} {b}`, then `_format_string`. -/
def _replacePHONE_CL (o : Oracle) (text : Str) (k : Nat) : Option (Str × Nat) :=
  let (a, k1) := randint o.g 1000 9999 k
  let (b, k2) := randint o.g 1000 9999 k1
  let replacement := "+56 9 ".data ++ (toString a).data ++ [' '] ++ (toString b).data
  match _format_string text replacement with
  | none => none
  | some r => some (r, k2)

/-- `AllAnonym._replaceRUT_CL`: the constant placeholder. -/
def _replaceRUT_CL (text : Str) (k : Nat) : Option (Str × Nat) :=
  some ("12.345.678-K".data, k)

/-- `AllAnonym._replaceLICENSE_PLATE_CL`: four random upper-case letters
and two random digits in the `AB-CD-12` pattern, then `_format_string`. -/
def _replaceLICENSE_PLATE_CL (o : Oracle) (text : Str) (k : Nat) : Option (Str × Nat) :=
  let (l1, k1) := randChoice o.g uppers k
  let (l2, k2) := randChoice o.g uppers k1
  let (l3, k3) := randChoice o.g uppers k2
  let (l4, k4) := randChoice o.g uppers k3
  let (d1, k5) := randChoice o.g numbers k4
  let (d2, k6) := randChoice o.g numbers k5
  let replacement := [l1, l2, '-', l3, l4, '-', d1, d2]
  match _format_string text replacement with
  | none => none
  | some r => some (r, k6)

/-- `AllAnonym._replaceZIP` (lines 225-229): keep `text[:2]` when
`text[:2].isnumeric()`, default-substitute the rest. -/
def _replaceZIP (g : RandGen) (text : Str) (k : Nat) : Option (Str × Nat) :=
  if pyIsNumericStr (text.take 2) then
    let (r, k1) := _random_replace g (text.drop 2) k
    some (text.take 2 ++ r, k1)
  else
    some (_random_replace g text k)

/-- `AllAnonym._replaceID`. -/
def _replaceID (g : RandGen) (text : Str) (k : Nat) : Option (Str × Nat) :=
  _replaceDefault g text k

/-- `AllAnonym._replaceDATE`: one `date_time_between` draw, rendered
numerically when the original has no alphabetic character, long-form
otherwise. -/
def _replaceDATE (o : Oracle) (text : Str) (k : Nat) : Option (Str × Nat) :=
  some (if text.any Char.isAlpha then o.dateLong k else o.dateNumeric k, k + 1)

/-- `AllAnonym._replaceFINANCIAL` (lines 244-251): `text[0]` raises on an
empty original; an alphabetic first character keeps `text[:2]` verbatim. -/
def _replaceFINANCIAL (g : RandGen) (text : Str) (k : Nat) : Option (Str × Nat) :=
  match text with
  | [] => none
  | c :: _ =>
    if c.isAlpha then
      let (r, k1) := _random_replace g (text.drop 2) k
      some (text.take 2 ++ r, k1)
    else
      some (_random_replace g text k)

/-- `AllAnonym._replaceCARD`. -/
def _replaceCARD (g : RandGen) (text : Str) (k : Nat) : Option (Str × Nat) :=
  _replaceDefault g text k

/-- `AllAnonym._replaceVEHICLE`. -/
def _replaceVEHICLE (g : RandGen) (text : Str) (k : Nat) : Option (Str × Nat) :=
  _replaceDefault g text k

/-- `AllAnonym._replaceDelete`: the empty replacement. -/
def _replaceDelete (text : Str) (k : Nat) : Option (Str × Nat) :=
  some ([], k)

/-- The keys of `AllAnonym.replace_dict` (lines 145-161). -/
def registryLabels : List String :=
  ["PER", "LOC", "DATE", "ZIP", "ID", "FINANCIAL", "VEHICLE", "CARD",
   "TELEPHONE", "RUT_CL", "PHONE_CL", "LICENSE_PLATE_CL", "OTHER", "SENSITIVE"]

/-- `AllAnonym.replace_dict` as a label-indexed lookup. -/
def replace_dict (o : Oracle) (label : String) : Option (Str → Nat → Option (Str × Nat)) :=
  if label = "PER" then some (_replacePER o)
  else if label = "LOC" then some (_replaceLOC o)
  else if label = "DATE" then some (_replaceDATE o)
  else if label = "ZIP" then some (_replaceZIP o.g)
  else if label = "ID" then some (_replaceID o.g)
  else if label = "FINANCIAL" then some (_replaceFINANCIAL o.g)
  else if label = "VEHICLE" then some (_replaceVEHICLE o.g)
  else if label = "CARD" then some (_replaceCARD o.g)
  else if label = "TELEPHONE" then some (_replaceTELEPHONE o.g)
  else if label = "RUT_CL" then some _replaceRUT_CL
  else if label = "PHONE_CL" then some (_replacePHONE_CL o)
  else if label = "LICENSE_PLATE_CL" then some (_replaceLICENSE_PLATE_CL o)
  else if label = "OTHER" then some (_replaceDefault o.g)
  else if label = "SENSITIVE" then some _replaceDelete
  else none

/-- `AllAnonym.anonymize` (lines 163-168): slice the original, dispatch on
the label (default fallback for unknown labels), splice the replacement in
and return the copied span with its `end` recomputed. -/
def anonymize (o : Oracle) (span : Span) (text : Str) (k : Nat) :
    Option ((Span × Str) × Nat) :=
  let old_text := pySlice text span.start span.«end»
  let step := match replace_dict o span.label with
              | some f => f old_text k
              | none => _replaceDefault o.g old_text k
  match step with
  | none => none
  | some (new_text, k1) =>
    some ((⟨span.start, span.start + (new_text.length : Int), span.label⟩,
           pySlice text 0 span.start ++ new_text ++ pySlice text span.«end» (text.length : Int)), k1)

/-- Everything `anonymizeSpans`'s loop body produces across the pass:
`new_spans` and `text` are the function's return value; `muts` records the
final value of each caller-supplied span record after the in-place
`span["start"] += offset` / `span["end"] += offset` statements of lines
26-27; `repls` records, for each span, the slice of the just-rewritten
text at the emitted span (= the replacement string spliced in); `k` is the
final call counter. -/
structure LoopResult where
  new_spans : List Span
  muts : List Span
  repls : List Str
  text : Str
  k : Nat
deriving DecidableEq, Repr

/-- The loop of `anonymizeSpans` (lines 23-32), instrumented with `muts`
and `repls`; a strategy raising (e.g. `text[0]` on an empty slice) aborts
the whole pass (`none`). -/
def anonymizeSpansLoop (o : Oracle) :
    List Span → Str → Int → Nat → Option LoopResult
  | [], text, _, k => some ⟨[], [], [], text, k⟩
  | span :: spans, text, offset, k =>
    let span' : Span := { span with start := span.start + offset, «end» := span.«end» + offset }
    match anonymize o span' text k with
    | none => none
    | some ((new_span, new_text), k1) =>
      match anonymizeSpansLoop o spans new_text (offset + (new_span.«end» - span'.«end»)) k1 with
      | none => none
      | some res =>
        some ⟨new_span :: res.new_spans, span' :: res.muts,
              pySlice new_text new_span.start new_span.«end» :: res.repls,
              res.text, res.k⟩

/-- `anonymizeSpans` (lines 22-32): the returned pair. -/
def anonymizeSpans (o : Oracle) (spans : List Span) (text : Str) :
    Option (List Span × Str) :=
  (anonymizeSpansLoop o spans text 0 0).map (fun res => (res.new_spans, res.text))

/-- A concrete random source for witnesses: every draw is 0. -/
def gZero : RandGen := fun _ => 0

/-- A concrete oracle for witnesses. -/
def oracleZero : Oracle where
  g := gZero
  fakeName := fun _ => "Alexandra".data
  fakeCity := fun _ => "Talca".data
  fakeStreetAddress := fun _ => "Av 1".data
  dateNumeric := fun _ => "01/01/2025".data
  dateLong := fun _ => "1 de enero de 2025".data


theorem isDigit_isUpper_false (c : Char) (h : c.isDigit = true) : c.isUpper = false := by
  simp only [Char.isDigit, Bool.and_eq_true, decide_eq_true_eq] at h
  by_contra hc
  rw [Bool.not_eq_false, Char.isUpper, Bool.and_eq_true, decide_eq_true_eq, decide_eq_true_eq] at hc
  have h1 : (65 : Nat) ≤ c.val.toNat := hc.1
  have h2 : c.val.toNat ≤ (57 : Nat) := h.2
  omega

theorem isDigit_isLower_false (c : Char) (h : c.isDigit = true) : c.isLower = false := by
  simp only [Char.isDigit, Bool.and_eq_true, decide_eq_true_eq] at h
  by_contra hc
  rw [Bool.not_eq_false, Char.isLower, Bool.and_eq_true, decide_eq_true_eq, decide_eq_true_eq] at hc
  have h1 : (97 : Nat) ≤ c.val.toNat := hc.1
  have h2 : c.val.toNat ≤ (57 : Nat) := h.2
  omega

theorem isUpper_isLower_false (c : Char) (h : c.isUpper = true) : c.isLower = false := by
  rw [Char.isUpper, Bool.and_eq_true, decide_eq_true_eq, decide_eq_true_eq] at h
  by_contra hc
  rw [Bool.not_eq_false, Char.isLower, Bool.and_eq_true, decide_eq_true_eq, decide_eq_true_eq] at hc
  have h1 : (97 : Nat) ≤ c.val.toNat := hc.1
  have h2 : c.val.toNat ≤ (90 : Nat) := h.2
  omega

theorem isAlpha_false_isUpper_false (c : Char) (h : c.isAlpha = false) : c.isUpper = false := by
  rw [Char.isAlpha, Bool.or_eq_false_iff] at h
  exact h.1

theorem isAlpha_false_isLower_false (c : Char) (h : c.isAlpha = false) : c.isLower = false := by
  rw [Char.isAlpha, Bool.or_eq_false_iff] at h
  exact h.2

theorem isLower_of_isAlpha_not_isUpper (c : Char) (ha : c.isAlpha = true)
    (hu : c.isUpper = false) : c.isLower = true := by
  rw [Char.isAlpha, Bool.or_eq_true] at ha
  cases ha with
  | inl h => rw [h] at hu; cases hu
  | inr h => exact h

theorem seg_self (t : Str) (a : Nat) : seg t a a = [] := by
  rw [seg, List.drop_eq_nil_iff, List.length_take]
  omega

theorem seg_zero_length (t : Str) : seg t 0 t.length = t := by
  simp [seg]

theorem seg_take (t : Str) (b : Nat) : seg t 0 b = t.take b := by
  simp [seg]

theorem seg_drop_all (t : Str) (a : Nat) : seg t a t.length = t.drop a := by
  simp [seg]

theorem seg_append_right (A B : Str) (a b : Nat) :
    seg (A ++ B) (A.length + a) (A.length + b) = seg B a b := by
  rw [seg, List.take_append, seg]
  have : A.length + a = (A.length + a) := rfl
  calc (A ++ B.take b).drop (A.length + a) = (B.take b).drop a := List.drop_append a
    _ = seg B a b := rfl

theorem seg_of_drop (t : Str) (d a b : Nat) :
    seg (t.drop d) a b = seg t (d + a) (d + b) := by
  rw [seg, List.take_drop, List.drop_drop, seg]

theorem take_take_of_le (t : Str) {b q : Nat} (hb : b ≤ q) :
    (t.take q).take b = t.take b := by
  rw [List.take_take, Nat.min_eq_left hb]

theorem seg_agree (t t' : Str) {a b q : Nat} (h : t.take q = t'.take q) (hb : b ≤ q) :
    seg t a b = seg t' a b := by
  rw [seg, seg, ← take_take_of_le t hb, h, take_take_of_le t' hb]

theorem seg_length (t : Str) (a b : Nat) : (seg t a b).length = min b t.length - a := by
  rw [seg, List.length_drop, List.length_take]

theorem take_min_length (t : Str) (b : Nat) : t.take (min b t.length) = t.take b := by
  rcases Nat.le_total b t.length with h | h
  · rw [Nat.min_eq_left h]
  · rw [Nat.min_eq_right h, List.take_length, List.take_of_length_le h]

theorem drop_min_length (t t' : Str) (a : Nat) (hlen : t'.length ≤ t.length) :
    t'.drop (min a t.length) = t'.drop a := by
  rcases Nat.le_total a t.length with h | h
  · rw [Nat.min_eq_left h]
  · rw [Nat.min_eq_right h]
    rw [List.drop_eq_nil_iff.2 hlen, Eq.comm, List.drop_eq_nil_iff]
    omega

theorem pyIdx_ofNat (n : Nat) (a : Nat) : pyIdx n (a : Int) = min a n := by
  rw [pyIdx, if_neg (by omega), Int.toNat_ofNat]

theorem pySlice_eq_seg (t : Str) (a b : Int) (ha : 0 ≤ a) (hb : 0 ≤ b) :
    pySlice t a b = seg t a.toNat b.toNat := by
  have ha' : a = (a.toNat : Int) := (Int.toNat_of_nonneg ha).symm
  have hb' : b = (b.toNat : Int) := (Int.toNat_of_nonneg hb).symm
  rw [pySlice, ha', hb', pyIdx_ofNat, pyIdx_ofNat, take_min_length, seg]
  exact drop_min_length t (t.take b.toNat) a.toNat (by rw [List.length_take]; omega)

theorem pySlice_self (t : Str) (a : Int) : pySlice t a a = [] := by
  rw [pySlice, List.drop_eq_nil_iff, List.length_take]
  omega

theorem randChoice_mem (g : RandGen) (s : Str) (k : Nat) (hs : s ≠ []) :
    (randChoice g s k).1 ∈ s := by
  rw [randChoice]
  have hlt : g k % s.length < s.length := Nat.mod_lt _ (List.length_pos.2 hs)
  rw [List.getD_eq_getElem _ _ hlt]
  exact List.getElem_mem hlt

theorem rr_cons_digit (g : RandGen) (c : Char) (cs : Str) (k : Nat) (hd : c.isDigit = true) :
    _random_replace g (c :: cs) k =
      ((randChoice g numbers k).1 :: (_random_replace g cs (k + 1)).1,
       (_random_replace g cs (k + 1)).2) := by
  simp [_random_replace, hd, randChoice]

theorem rr_cons_upper (g : RandGen) (c : Char) (cs : Str) (k : Nat)
    (hd : c.isDigit = false) (ha : c.isAlpha = true) (hu : c.isUpper = true) :
    _random_replace g (c :: cs) k =
      ((randChoice g uppers k).1 :: (_random_replace g cs (k + 1)).1,
       (_random_replace g cs (k + 1)).2) := by
  simp [_random_replace, hd, ha, hu, randChoice]

theorem rr_cons_lower (g : RandGen) (c : Char) (cs : Str) (k : Nat)
    (hd : c.isDigit = false) (ha : c.isAlpha = true) (hu : c.isUpper = false) :
    _random_replace g (c :: cs) k =
      ((randChoice g lowers k).1 :: (_random_replace g cs (k + 1)).1,
       (_random_replace g cs (k + 1)).2) := by
  simp [_random_replace, hd, ha, hu, randChoice]

theorem rr_cons_other (g : RandGen) (c : Char) (cs : Str) (k : Nat)
    (hd : c.isDigit = false) (ha : c.isAlpha = false) :
    _random_replace g (c :: cs) k =
      (c :: (_random_replace g cs k).1, (_random_replace g cs k).2) := by
  simp [_random_replace, hd, ha]

theorem random_replace_length (g : RandGen) (text : Str) (k : Nat) :
    (_random_replace g text k).1.length = text.length := by
  induction text generalizing k with
  | nil => rfl
  | cons c cs ih =>
    by_cases hd : c.isDigit = true
    · rw [rr_cons_digit g c cs k hd]; simp [ih]
    · rw [Bool.not_eq_true] at hd
      by_cases ha : c.isAlpha = true
      · by_cases hu : c.isUpper = true
        · rw [rr_cons_upper g c cs k hd ha hu]; simp [ih]
        · rw [Bool.not_eq_true] at hu
          rw [rr_cons_lower g c cs k hd ha hu]; simp [ih]
      · rw [Bool.not_eq_true] at ha
        rw [rr_cons_other g c cs k hd ha]; simp [ih]

/-- The per-character contract the claim states for the substitution
utility: a decimal digit goes to a decimal digit, an upper-case letter to
one of the 26 upper-case letters, a lower-case letter to one of the 26
lower-case ones, and a character of no such class is unchanged. -/
def substClass (c c' : Char) : Prop :=
  (c.isDigit = true → c' ∈ numbers) ∧
  (c.isUpper = true → c' ∈ uppers) ∧
  (c.isLower = true → c' ∈ lowers) ∧
  (c.isDigit = false → c.isAlpha = false → c' = c)

/-- Claim C5: for every input string and every behaviour of the random
source, `_random_replace` returns a string of the same length in which
every decimal digit is replaced by a decimal digit, every upper-case
letter by an upper-case letter of the 26-letter alphabet, every
lower-case letter by a lower-case letter of the 26-letter alphabet, and
every other character is passed through unchanged at its position. -/
theorem claim_C5 (g : RandGen) (text : Str) (k : Nat) :
    ((_random_replace g text k).1.length = text.length) ∧
    List.Forall₂ substClass text (_random_replace g text k).1 := by
  refine ⟨random_replace_length g text k, ?_⟩
  induction text generalizing k with
  | nil => exact List.Forall₂.nil
  | cons c cs ih =>
    by_cases hd : c.isDigit = true
    · rw [rr_cons_digit g c cs k hd]
      refine List.Forall₂.cons ?_ (ih (k + 1))
      refine ⟨fun _ => randChoice_mem g numbers k (by decide), ?_, ?_, ?_⟩
      · intro hu; rw [isDigit_isUpper_false c hd] at hu; cases hu
      · intro hl; rw [isDigit_isLower_false c hd] at hl; cases hl
      · intro h; rw [hd] at h; cases h
    · rw [Bool.not_eq_true] at hd
      by_cases ha : c.isAlpha = true
      · by_cases hu : c.isUpper = true
        · rw [rr_cons_upper g c cs k hd ha hu]
          refine List.Forall₂.cons ?_ (ih (k + 1))
          refine ⟨fun h => absurd h (by rw [hd]; decide),
                  fun _ => randChoice_mem g uppers k (by decide), ?_, ?_⟩
          · intro hl; rw [isUpper_isLower_false c hu] at hl; cases hl
          · intro _ h; rw [isAlpha_false_isUpper_false c h] at hu; cases hu
        · rw [Bool.not_eq_true] at hu
          rw [rr_cons_lower g c cs k hd ha hu]
          refine List.Forall₂.cons ?_ (ih (k + 1))
          refine ⟨fun h => absurd h (by rw [hd]; decide),
                  fun h => absurd h (by rw [hu]; decide),
                  fun _ => randChoice_mem g lowers k (by decide), ?_⟩
          · intro _ h; rw [h] at ha; cases ha
      · rw [Bool.not_eq_true] at ha
        rw [rr_cons_other g c cs k hd ha]
        refine List.Forall₂.cons ?_ (ih k)
        refine ⟨fun h => absurd h (by rw [hd]; decide), ?_, ?_, fun _ _ => rfl⟩
        · intro hu; rw [isAlpha_false_isUpper_false c ha] at hu; cases hu
        · intro hl; rw [isAlpha_false_isLower_false c ha] at hl; cases hl

/-- Claim C4: running `anonymizeSpans` with the `AllAnonym` strategies on
the text "A secret note" and the single span {start=2, end=8,
label="SENSITIVE"} returns (for every oracle, no randomness is consumed)
the text "A  note" and the emitted span {start=2, end=2}: the SENSITIVE
strategy returns the empty string, the span collapses and the text closes
up. -/
theorem claim_C4 (o : Oracle) :
    anonymizeSpans o [⟨2, 8, "SENSITIVE"⟩] "A secret note".data =
      some ([⟨2, 2, "SENSITIVE"⟩], "A  note".data) := rfl

/-- Claim C6: `_format_string` evaluated on a non-empty original: if the
original's first character is upper-case and a second character exists and
is upper-case too, the replacement is fully upper-cased; if the first
character is upper-case otherwise (no second character, or a non-upper
one) the replacement gets its first character capitalized and the rest
lower-cased; if the first character is not upper-case the replacement is
unchanged; an empty replacement is returned unchanged with no failure; and
the three concrete examples JOHN/John/john → PEDRO/Pedro/pedro hold. -/
theorem claim_C6 (text repl : Str) (c0 : Char) (h0 : text.get? 0 = some c0) :
    (c0.isUpper = true → (∃ c1, text.get? 1 = some c1 ∧ c1.isUpper = true) →
        _format_string text repl = some (repl.map Char.toUpper)) ∧
    (c0.isUpper = true → (∀ c1, text.get? 1 = some c1 → c1.isUpper = false) →
        _format_string text repl = some (pyCapitalize repl)) ∧
    (c0.isUpper = false → _format_string text repl = some repl) ∧
    _format_string text [] = some [] ∧
    _format_string "JOHN".data "pedro".data = some "PEDRO".data ∧
    _format_string "John".data "pedro".data = some "Pedro".data ∧
    _format_string "john".data "pedro".data = some "pedro".data := by
  match text, h0 with
  | c :: rest, h0 =>
    rw [List.get?_cons_zero, Option.some_inj] at h0
    subst h0
    refine ⟨?_, ?_, ?_, ?_, by decide, by decide, by decide⟩
    · rintro hu ⟨c1, h1, hu1⟩
      match rest, h1 with
      | c1' :: rest', h1 =>
        rw [List.get?_cons_succ, List.get?_cons_zero, Option.some_inj] at h1
        subst h1
        simp [_format_string, hu, hu1, pyUpper]
    · intro hu h1
      match rest with
      | [] => simp [_format_string, hu]
      | c1 :: rest' =>
        have := h1 c1 (by rw [List.get?_cons_succ, List.get?_cons_zero])
        simp [_format_string, hu, this]
    · intro hu
      simp [_format_string, hu]
    · rcases rest with _ | ⟨c1, rest'⟩ <;>
        by_cases hu : c.isUpper <;>
        first
          | (by_cases hu1 : c1.isUpper <;> simp [_format_string, hu, hu1, pyUpper, pyCapitalize])
          | simp [_format_string, hu, pyCapitalize]

/-- Witness for C6: the all-caps branch at original "AB" and replacement
"pedro". -/
theorem claim_C6_witness :
    "AB".data.get? 0 = some 'A' ∧
    _format_string "AB".data "pedro".data = some ("pedro".data.map Char.toUpper) :=
  ⟨by decide,
   (claim_C6 "AB".data "pedro".data 'A' (by decide)).1 (by decide) ⟨'B', by decide, by decide⟩⟩

/-- Counterexample to C7 as stated: for the one-character numeric original
"5" the claim's condition "the first two characters of the original are
numeric" fails (there is no second character), so the claim asserts the
default substitution of the whole string; but `text[:2]` of "5" is "5"
itself, `"5".isnumeric()` is true, and `_replaceZIP` returns "5" verbatim
(consuming no randomness), which differs from the default substitution
under the all-zero random source (which yields "0"). -/
theorem claim_C7_counterexample :
    ¬ (2 ≤ (['5'] : Str).length) ∧
    _replaceZIP gZero ['5'] 0 = some (['5'], 0) ∧
    some (_random_replace gZero ['5'] 0) = some ((['0'] : Str), 1) ∧
    _replaceZIP gZero ['5'] 0 ≠ some (_random_replace gZero ['5'] 0) := by decide

/-- Claim C7 as amended: if the original has at least two characters and
the first two are numeric, `_replaceZIP` keeps those two verbatim and
default-substitutes the remainder; if the original is a single numeric
character, that character is kept verbatim (the whole original is its own
2-prefix) and nothing is substituted; in every other case (empty original,
non-numeric first character, or a second character that is not numeric)
the default substitution applies to the whole string. -/
theorem claim_C7_amended (g : RandGen) (text : Str) (k : Nat) :
    (∀ c0 c1 rest, text = c0 :: c1 :: rest → c0.isDigit = true → c1.isDigit = true →
        _replaceZIP g text k =
          some (text.take 2 ++ (_random_replace g (text.drop 2) k).1,
                (_random_replace g (text.drop 2) k).2)) ∧
    (∀ c0, text = [c0] → c0.isDigit = true → _replaceZIP g text k = some (text, k)) ∧
    ((text = [] ∨ (∃ c0 cs, text = c0 :: cs ∧ c0.isDigit = false) ∨
        (∃ c0 c1 rest, text = c0 :: c1 :: rest ∧ c1.isDigit = false)) →
      _replaceZIP g text k = some (_random_replace g text k)) := by
  refine ⟨?_, ?_, ?_⟩
  · rintro c0 c1 rest rfl h0 h1
    have hnum : pyIsNumericStr ((c0 :: c1 :: rest).take 2) = true := by
      simp [pyIsNumericStr, h0, h1]
    rw [_replaceZIP, if_pos hnum]
  · rintro c0 rfl h0
    have hnum : pyIsNumericStr ([c0].take 2) = true := by
      simp [pyIsNumericStr, h0]
    rw [_replaceZIP, if_pos hnum]
    rfl
  · intro hcase
    have hnum : pyIsNumericStr (text.take 2) = false := by
      rcases hcase with rfl | ⟨c0, cs, rfl, h0⟩ | ⟨c0, c1, rest, rfl, h1⟩
      · decide
      · cases cs <;> simp [pyIsNumericStr, h0]
      · simp [pyIsNumericStr, h1]
    rw [_replaceZIP, if_neg (by simp [hnum])]

/-- Witness for the amended C7 at its new single-digit case: "5" is
returned verbatim with the counter unchanged. -/
theorem claim_C7_amended_witness :
    ('5'.isDigit = true) ∧ _replaceZIP gZero ['5'] 0 = some (['5'], 0) :=
  ⟨by decide, (claim_C7_amended gZero ['5'] 0).2.1 '5' rfl (by decide)⟩

theorem replace_dict_eq_none (o : Oracle) (label : String)
    (h : label ∉ registryLabels) : replace_dict o label = none := by
  simp only [registryLabels, List.mem_cons, List.not_mem_nil, or_false, not_or] at h
  obtain ⟨h1, h2, h3, h4, h5, h6, h7, h8, h9, h10, h11, h12, h13, h14⟩ := h
  rw [replace_dict]
  rw [if_neg h1, if_neg h2, if_neg h3, if_neg h4, if_neg h5, if_neg h6, if_neg h7,
      if_neg h8, if_neg h9, if_neg h10, if_neg h11, if_neg h12, if_neg h13, if_neg h14]

/-- Claim C8: for a span whose label is not a key of the strategy
registry, `AllAnonym.anonymize` does not fail: it computes the replacement
with the default character substitution (the same `_random_replace` the
OTHER label uses) on the spanned substring, and that replacement has the
same length as the original substring. -/
theorem claim_C8 (o : Oracle) (span : Span) (text : Str) (k : Nat)
    (h : span.label ∉ registryLabels) :
    anonymize o span text k =
      some ((⟨span.start,
              span.start + ((_random_replace o.g (pySlice text span.start span.«end») k).1.length : Int),
              span.label⟩,
             pySlice text 0 span.start ++
               (_random_replace o.g (pySlice text span.start span.«end») k).1 ++
               pySlice text span.«end» (text.length : Int)),
            (_random_replace o.g (pySlice text span.start span.«end») k).2) ∧
    (_random_replace o.g (pySlice text span.start span.«end») k).1.length =
      (pySlice text span.start span.«end»).length := by
  refine ⟨?_, random_replace_length _ _ _⟩
  rw [anonymize]
  simp only [replace_dict_eq_none o span.label h, _replaceDefault]

/-- Witness for C8 at the unknown label "MISC". -/
theorem claim_C8_witness :
    ("MISC" ∉ registryLabels) ∧
    anonymize oracleZero ⟨0, 2, "MISC"⟩ "ab".data 0 =
      some ((⟨0, 2, "MISC"⟩, "aa".data), 2) := by
  have h := claim_C8 oracleZero ⟨0, 2, "MISC"⟩ "ab".data 0 (by decide)
  exact ⟨by decide, by rw [h.1]; decide⟩

/-- Claim C9: the RUT_CL strategy returns the constant canonical-format
placeholder "12.345.678-K" for every input, so the result is independent
of the input and preserves nothing of the original. -/
theorem claim_C9 (text : Str) (k : Nat) :
    _replaceRUT_CL text k = some ("12.345.678-K".data, k) ∧
    ∀ text' : Str, _replaceRUT_CL text k = _replaceRUT_CL text' k :=
  ⟨rfl, fun _ => rfl⟩

/-- Claim C10: on an empty original substring every strategy that reads
the original's first character fails with the modelled IndexError:
`_format_string` reads `text[0]`, so PER, PHONE_CL and LICENSE_PLATE_CL
fail on an empty original, `_replaceFINANCIAL` reads `text[0]` directly
and fails likewise, and the engine does not guard against it: `anonymize`
on a zero-length PER span propagates the failure. -/
theorem claim_C10 (o : Oracle) (g : RandGen) (repl text : Str) (k : Nat) (s : Int) :
    _format_string [] repl = none ∧
    _replacePER o [] k = none ∧
    _replacePHONE_CL o [] k = none ∧
    _replaceLICENSE_PLATE_CL o [] k = none ∧
    _replaceFINANCIAL g [] k = none ∧
    anonymize o ⟨s, s, "PER"⟩ text k = none := by
  refine ⟨rfl, rfl, rfl, rfl, rfl, ?_⟩
  simp only [anonymize, pySlice_self]
  rfl

theorem anonymize_some (o : Oracle) (span : Span) (text : Str) (k : Nat)
    (ns : Span) (nt : Str) (k1 : Nat)
    (h : anonymize o span text k = some ((ns, nt), k1)) :
    ∃ r : Str, ns = ⟨span.start, span.start + (r.length : Int), span.label⟩ ∧
      nt = pySlice text 0 span.start ++ r ++ pySlice text span.«end» (text.length : Int) := by
  rw [anonymize] at h
  rcases hstep : (match replace_dict o span.label with
      | some f => f (pySlice text span.start span.«end») k
      | none => _replaceDefault o.g (pySlice text span.start span.«end») k) with _ | ⟨r, k2⟩
  · rw [hstep] at h; cases h
  · rw [hstep] at h
    simp only [Option.some_inj, Prod.mk.injEq] at h
    exact ⟨r, h.1.1.symm, h.1.2.symm⟩

theorem loop_muts (o : Oracle) (spans : List Span) :
    ∀ (text : Str) (offset : Int) (k : Nat) (res : LoopResult),
      anonymizeSpansLoop o spans text offset k = some res →
      res.muts.length = spans.length ∧
      (∀ (s : Span) (m : Span), spans.head? = some s → res.muts.head? = some m →
         m = ⟨s.start + offset, s.«end» + offset, s.label⟩) ∧
      (∀ (i : Nat) (s m : Span), spans[i]? = some s → res.muts[i]? = some m →
         m.label = s.label ∧ ∃ d : Int, m.start = s.start + d ∧ m.«end» = s.«end» + d) := by
  induction spans with
  | nil =>
    intro text offset k res hrun
    rw [anonymizeSpansLoop, Option.some_inj] at hrun
    subst hrun
    refine ⟨rfl, ?_, ?_⟩
    · intro s m hs hm
      cases hs
    · intro i s m hs hm
      simp at hs
  | cons s rest ih =>
    intro text offset k res hrun
    simp only [anonymizeSpansLoop] at hrun
    rcases han : anonymize o ⟨s.start + offset, s.«end» + offset, s.label⟩ text k
      with _ | ⟨⟨ns, nt⟩, k1⟩ <;> rw [han] at hrun <;> dsimp only at hrun
    · cases hrun
    rcases hrec : anonymizeSpansLoop o rest nt (offset + (ns.«end» - (s.«end» + offset))) k1
      with _ | res' <;> rw [hrec] at hrun <;> dsimp only at hrun
    · cases hrun
    rw [Option.some_inj] at hrun
    subst hrun
    obtain ⟨ihlen, ihhead, ihall⟩ := ih nt _ k1 res' hrec
    refine ⟨by simp [ihlen], ?_, ?_⟩
    · intro s0 m0 hs0 hm0
      rw [List.head?_cons, Option.some_inj] at hs0 hm0
      subst hs0; subst hm0; rfl
    · intro i s0 m0 hs0 hm0
      cases i with
      | zero =>
        rw [List.getElem?_cons_zero, Option.some_inj] at hs0 hm0
        subst hs0; subst hm0
        exact ⟨rfl, offset, rfl, rfl⟩
      | succ j =>
        rw [List.getElem?_cons_succ] at hs0 hm0
        exact ihall j s0 m0 hs0 hm0

theorem chain_le_of_mem (s : Span) (rest : List Span)
    (hse : ∀ x ∈ rest, x.start ≤ x.«end»)
    (hch : List.Chain' (fun a b => a.«end» ≤ b.start) (s :: rest)) :
    ∀ t ∈ rest, s.«end» ≤ t.start := by
  induction rest generalizing s with
  | nil => intro t ht; cases ht
  | cons t rest ih =>
    rw [List.chain'_cons] at hch
    intro u hu
    rcases List.mem_cons.1 hu with rfl | hu2
    · exact hch.1
    · have h2 := ih t (fun x hx => hse x (List.mem_cons_of_mem _ hx)) hch.2 u hu2
      have h3 := hse t (List.mem_cons_self t rest)
      omega

theorem chain'_adj (l : List Span) (hch : List.Chain' (fun a b => a.«end» ≤ b.start) l)
    (i : Nat) (x y : Span) (hx : l[i]? = some x) (hy : l[i + 1]? = some y) :
    x.«end» ≤ y.start := by
  have hiy : i + 1 < l.length := by
    by_contra hc
    rw [List.getElem?_eq_none (by omega)] at hy
    cases hy
  have hx' : l[i] = x := by
    rw [List.getElem?_eq_getElem (by omega)] at hx
    exact Option.some_inj.1 hx
  have hy' : l[i + 1] = y := by
    rw [List.getElem?_eq_getElem hiy] at hy
    exact Option.some_inj.1 hy
  have := List.chain'_iff_get.1 hch i (by omega)
  simp only [List.get_eq_getElem] at this
  rw [hx', hy'] at this
  exact this

set_option maxHeartbeats 1000000

theorem loop_spec (o : Oracle) (spans : List Span) :
    ∀ (text : Str) (offset : Int) (k : Nat) (res : LoopResult),
      anonymizeSpansLoop o spans text offset k = some res →
      (∀ s ∈ spans, 0 ≤ s.start + offset) →
      (∀ s ∈ spans, s.start ≤ s.«end») →
      (∀ s ∈ spans, s.«end» + offset ≤ (text.length : Int)) →
      List.Chain' (fun a b => a.«end» ≤ b.start) spans →
      res.new_spans.length = spans.length ∧
      res.repls.length = spans.length ∧
      (∀ i : Nat, (res.new_spans[i]?).map Span.label = (spans[i]?).map Span.label) ∧
      (∀ (i : Nat) (ns : Span), res.new_spans[i]? = some ns →
         0 ≤ ns.start ∧ ns.start ≤ ns.«end») ∧
      List.Chain' (fun a b => a.«end» ≤ b.start) res.new_spans ∧
      (spans = [] → res.text = text) ∧
      (∀ (s0 ns0 : Span), spans.head? = some s0 → res.new_spans.head? = some ns0 →
         ns0.start = s0.start + offset ∧
         pySlice res.text 0 ns0.start = pySlice text 0 (s0.start + offset)) ∧
      (∀ (i : Nat) (ns0 : Span) (r0 : Str), res.new_spans[i]? = some ns0 →
         res.repls[i]? = some r0 → pySlice res.text ns0.start ns0.«end» = r0) ∧
      (∀ (i : Nat) (ns0 ns1 s0 s1 : Span), res.new_spans[i]? = some ns0 →
         res.new_spans[i + 1]? = some ns1 → spans[i]? = some s0 → spans[i + 1]? = some s1 →
         pySlice res.text ns0.«end» ns1.start =
           pySlice text (s0.«end» + offset) (s1.start + offset)) ∧
      (∀ (s0 ns0 : Span), spans.getLast? = some s0 → res.new_spans.getLast? = some ns0 →
         pySlice res.text ns0.«end» (res.text.length : Int) =
           pySlice text (s0.«end» + offset) (text.length : Int)) := by
  induction spans with
  | nil =>
    intro text offset k res hrun hnn hse hub hch
    rw [anonymizeSpansLoop, Option.some_inj] at hrun
    subst hrun
    refine ⟨rfl, rfl, ?_, ?_, List.chain'_nil, fun _ => rfl, ?_, ?_, ?_, ?_⟩
    · intro i; rfl
    · intro i ns h; simp at h
    · intro s0 ns0 h; cases h
    · intro i ns0 r0 h; simp at h
    · intro i ns0 ns1 s0 s1 h; simp at h
    · intro s0 ns0 h; cases h
  | cons s rest ih =>
    intro text offset k res hrun hnn hse hub hch
    simp only [anonymizeSpansLoop] at hrun
    rcases han : anonymize o ⟨s.start + offset, s.«end» + offset, s.label⟩ text k
      with _ | ⟨⟨ns, nt⟩, k1⟩ <;> rw [han] at hrun <;> dsimp only at hrun
    · cases hrun
    rcases hrec : anonymizeSpansLoop o rest nt (offset + (ns.«end» - (s.«end» + offset))) k1
      with _ | res' <;> rw [hrec] at hrun <;> dsimp only at hrun
    · cases hrun
    rw [Option.some_inj] at hrun
    subst hrun
    obtain ⟨r, hns, hnt⟩ := anonymize_some o ⟨s.start + offset, s.«end» + offset, s.label⟩
      text k ns nt k1 han
    dsimp only at hns hnt
    subst hns
    dsimp only at hrec ⊢
    -- shared facts about the head span and the rewritten text
    have hnn0 : 0 ≤ s.start + offset := hnn s (List.mem_cons_self s rest)
    have hse0 : s.start ≤ s.«end» := hse s (List.mem_cons_self s rest)
    have hub0 : s.«end» + offset ≤ (text.length : Int) := hub s (List.mem_cons_self s rest)
    have hmem : ∀ t ∈ rest, s.«end» ≤ t.start :=
      chain_le_of_mem s rest (fun x hx => hse x (List.mem_cons_of_mem _ hx)) hch
    have hnt' : nt = text.take (s.start + offset).toNat ++ r ++ text.drop (s.«end» + offset).toNat := by
      rw [hnt, pySlice_eq_seg text 0 (s.start + offset) (by omega) hnn0,
          pySlice_eq_seg text (s.«end» + offset) (text.length : Int) (by omega) (by omega)]
      rw [Int.toNat_zero, seg_take, Int.toNat_natCast, seg_drop_all]
    have hlenTake : (text.take (s.start + offset).toNat).length = (s.start + offset).toNat := by
      rw [List.length_take, Nat.min_eq_left]
      omega
    have hlenNt : nt.length =
        (s.start + offset).toNat + r.length + (text.length - (s.«end» + offset).toNat) := by
      rw [hnt']
      simp only [List.length_append, List.length_drop, hlenTake]
    have hnt2 : nt = (text.take (s.start + offset).toNat ++ r) ++ text.drop (s.«end» + offset).toNat := by
      rw [hnt', List.append_assoc]
    have hshift : ∀ c d : Int, s.«end» ≤ c → c ≤ d → d + offset ≤ (text.length : Int) →
        pySlice nt (c + (offset + (s.start + offset + (r.length : Int) - (s.«end» + offset))))
            (d + (offset + (s.start + offset + (r.length : Int) - (s.«end» + offset)))) =
          pySlice text (c + offset) (d + offset) := by
      intro c d hc hcd hdn
      rw [pySlice_eq_seg nt _ _ (by omega) (by omega),
          pySlice_eq_seg text _ _ (by omega) (by omega)]
      have hcu : (c + (offset + (s.start + offset + (r.length : Int) - (s.«end» + offset)))).toNat =
          (text.take (s.start + offset).toNat ++ r).length +
            ((c + offset).toNat - (s.«end» + offset).toNat) := by
        rw [List.length_append, hlenTake]
        omega
      have hdu : (d + (offset + (s.start + offset + (r.length : Int) - (s.«end» + offset)))).toNat =
          (text.take (s.start + offset).toNat ++ r).length +
            ((d + offset).toNat - (s.«end» + offset).toNat) := by
        rw [List.length_append, hlenTake]
        omega
      rw [hnt2, hcu, hdu, seg_append_right, seg_of_drop]
      have h1 : (s.«end» + offset).toNat + ((c + offset).toNat - (s.«end» + offset).toNat) =
          (c + offset).toNat := by omega
      have h2 : (s.«end» + offset).toNat + ((d + offset).toNat - (s.«end» + offset).toNat) =
          (d + offset).toNat := by omega
      rw [h1, h2]
    rcases rest with _ | ⟨t, rest2⟩
    · -- the head span is the only span
      rw [anonymizeSpansLoop, Option.some_inj] at hrec
      subst hrec
      dsimp only
      refine ⟨rfl, rfl, ?_, ?_, List.chain'_singleton _, ?_, ?_, ?_, ?_, ?_⟩
      · intro i
        cases i with
        | zero => rfl
        | succ j => simp
      · intro i ns0 h
        cases i with
        | zero =>
          rw [List.getElem?_cons_zero, Option.some_inj] at h
          subst h
          constructor
          · exact hnn0
          · dsimp only; omega
        | succ j => simp at h
      · intro h; cases h
      · intro s0 ns0 h1 h2
        rw [List.head?_cons, Option.some_inj] at h1 h2
        subst h1; subst h2
        dsimp only
        refine ⟨rfl, ?_⟩
        rw [pySlice_eq_seg nt 0 _ (by omega) (by omega),
            pySlice_eq_seg text 0 _ (by omega) (by omega),
            Int.toNat_zero, seg_take, seg_take, hnt', List.append_assoc,
            List.take_left' hlenTake]
      · intro i ns0 r0 h1 h2
        cases i with
        | zero =>
          rw [List.getElem?_cons_zero, Option.some_inj] at h1 h2
          subst h1; subst h2
          rfl
        | succ j => simp at h1
      · intro i ns0 ns1 s0 s1 h1 h2 h3 h4
        rw [List.getElem?_cons_succ] at h2
        simp at h2
      · intro s0 ns0 h1 h2
        rw [List.getLast?_singleton, Option.some_inj] at h1 h2
        subst h1; subst h2
        dsimp only
        rw [pySlice_eq_seg nt _ _ (by omega) (by omega),
            pySlice_eq_seg text _ _ (by omega) (by omega),
            Int.toNat_natCast, Int.toNat_natCast, seg_drop_all, seg_drop_all]
        have hAl : (s.start + offset + (r.length : Int)).toNat =
            (text.take (s.start + offset).toNat ++ r).length := by
          rw [List.length_append, hlenTake]
          omega
        rw [hnt2, hAl, List.drop_left]
    · -- rest = t :: rest2 : use the induction hypothesis on the tail
      have hA1 : ∀ u ∈ t :: rest2,
          0 ≤ u.start + (offset + (s.start + offset + (r.length : Int) - (s.«end» + offset))) := by
        intro u hu
        have := hmem u hu
        omega
      have hA2 : ∀ u ∈ t :: rest2, u.start ≤ u.«end» :=
        fun u hu => hse u (List.mem_cons_of_mem _ hu)
      have hA3 : ∀ u ∈ t :: rest2,
          u.«end» + (offset + (s.start + offset + (r.length : Int) - (s.«end» + offset))) ≤
            (nt.length : Int) := by
        intro u hu
        have hu1 := hub u (List.mem_cons_of_mem _ hu)
        have hu2 := hmem u hu
        have hu3 := hA2 u hu
        omega
      have hA4 : List.Chain' (fun a b => a.«end» ≤ b.start) (t :: rest2) :=
        (List.chain'_cons'.1 hch).2
      obtain ⟨ihlen, ihrlen, ihlab, ihbnd, ihch2, ihnil, ihhead, ihrepl, ihmid, ihlast⟩ :=
        ih nt _ k1 res' hrec hA1 hA2 hA3 hA4
      obtain ⟨nt0, out2, hns0⟩ : ∃ nt0 out2, res'.new_spans = nt0 :: out2 := by
        cases hcase : res'.new_spans with
        | nil => rw [hcase] at ihlen; simp at ihlen
        | cons a b => exact ⟨a, b, rfl⟩
      obtain ⟨hq, hpreQ⟩ := ihhead t nt0 List.head?_cons (by rw [hns0]; exact List.head?_cons)
      have hts : s.«end» ≤ t.start := hmem t (List.mem_cons_self t rest2)
      have htn : t.start + offset ≤ (text.length : Int) := by
        have := hub t (List.mem_cons_of_mem _ (List.mem_cons_self t rest2))
        have := hA2 t (List.mem_cons_self t rest2)
        omega
      have htake : res'.text.take (t.start + (offset + (s.start + offset + (r.length : Int) -
          (s.«end» + offset)))).toNat =
          nt.take (t.start + (offset + (s.start + offset + (r.length : Int) -
            (s.«end» + offset)))).toNat := by
        have e1 := hpreQ
        rw [hq] at e1
        rw [pySlice_eq_seg _ 0 _ (by omega) (by omega),
            pySlice_eq_seg _ 0 _ (by omega) (by omega),
            Int.toNat_zero, seg_take, seg_take] at e1
        exact e1
      have hagree : ∀ a b : Int, 0 ≤ a → 0 ≤ b →
          b ≤ t.start + (offset + (s.start + offset + (r.length : Int) - (s.«end» + offset))) →
          pySlice res'.text a b = pySlice nt a b := by
        intro a b ha hb hbq
        rw [pySlice_eq_seg _ _ _ ha hb, pySlice_eq_seg _ _ _ ha hb]
        exact seg_agree _ _ htake (by omega)
      refine ⟨by simp [ihlen], by simp [ihrlen], ?_, ?_, ?_, ?_, ?_, ?_, ?_, ?_⟩
      · intro i
        cases i with
        | zero => simp
        | succ j =>
          rw [List.getElem?_cons_succ, List.getElem?_cons_succ]
          exact ihlab j
      · intro i ns0 h
        cases i with
        | zero =>
          rw [List.getElem?_cons_zero, Option.some_inj] at h
          subst h
          exact ⟨hnn0, by dsimp only; omega⟩
        | succ j =>
          rw [List.getElem?_cons_succ] at h
          exact ihbnd j ns0 h
      · refine List.chain'_cons'.2 ⟨?_, ihch2⟩
        intro y hy
        rw [hns0, List.head?_cons, Option.mem_def, Option.some_inj] at hy
        subst hy
        dsimp only
        rw [hq]
        omega
      · intro h; cases h
      · intro s0 ns0 h1 h2
        rw [List.head?_cons, Option.some_inj] at h1 h2
        subst h1; subst h2
        refine ⟨rfl, ?_⟩
        dsimp only
        rw [hagree 0 (s.start + offset) (by omega) (by omega) (by omega)]
        rw [pySlice_eq_seg nt 0 _ (by omega) (by omega),
            pySlice_eq_seg text 0 _ (by omega) (by omega),
            Int.toNat_zero, seg_take, seg_take, hnt', List.append_assoc,
            List.take_left' hlenTake]
      · intro i ns0 r0 h1 h2
        cases i with
        | zero =>
          rw [List.getElem?_cons_zero, Option.some_inj] at h1 h2
          subst h1; subst h2
          dsimp only
          rw [hagree (s.start + offset) (s.start + offset + (r.length : Int))
                (by omega) (by omega) (by omega)]
        | succ j =>
          rw [List.getElem?_cons_succ] at h1 h2
          exact ihrepl j ns0 r0 h1 h2
      · intro i ns0 ns1 s0 s1 h1 h2 h3 h4
        cases i with
        | zero =>
          rw [List.getElem?_cons_zero, Option.some_inj] at h1 h3
          rw [List.getElem?_cons_succ, List.getElem?_cons_zero, Option.some_inj] at h4
          rw [List.getElem?_cons_succ, hns0, List.getElem?_cons_zero, Option.some_inj] at h2
          subst h1; subst h2; subst h3; subst h4
          dsimp only
          rw [hagree (s.start + offset + (r.length : Int)) nt0.start
                (by omega) (by rw [hq]; omega) (by rw [hq])]
          have e1 : s.start + offset + (r.length : Int) =
              s.«end» + (offset + (s.start + offset + (r.length : Int) - (s.«end» + offset))) := by
            omega
          rw [e1, hq]
          exact hshift s.«end» t.start (le_refl _) hts htn
        | succ j =>
          rw [List.getElem?_cons_succ] at h1 h2 h3 h4
          rw [ihmid j ns0 ns1 s0 s1 h1 h2 h3 h4]
          have hm0 : s0 ∈ t :: rest2 := List.getElem?_mem h3
          have hm1 : s1 ∈ t :: rest2 := List.getElem?_mem h4
          have hc : s.«end» ≤ s0.«end» := by
            have := hmem s0 hm0
            have := hA2 s0 hm0
            omega
          have hcd : s0.«end» ≤ s1.start := chain'_adj (t :: rest2) hA4 j s0 s1 h3 h4
          have hdn : s1.start + offset ≤ (text.length : Int) := by
            have := hub s1 (List.mem_cons_of_mem _ hm1)
            have := hA2 s1 hm1
            omega
          exact hshift s0.«end» s1.start hc hcd hdn
      · intro s0 ns0 h1 h2
        rw [List.getLast?_cons_cons] at h1
        rw [hns0, List.getLast?_cons_cons] at h2
        have h2' : res'.new_spans.getLast? = some ns0 := by rw [hns0]; exact h2
        have hil := ihlast s0 ns0 h1 h2'
        have hm0 : s0 ∈ t :: rest2 := List.mem_of_mem_getLast? h1
        have hc : s.«end» ≤ s0.«end» := by
          have := hmem s0 hm0
          have := hA2 s0 hm0
          omega
        have hcd : s0.«end» ≤ (text.length : Int) - offset := by
          have := hub s0 (List.mem_cons_of_mem _ hm0)
          omega
        have hdn : ((text.length : Int) - offset) + offset ≤ (text.length : Int) := by omega
        have hsh := hshift s0.«end» ((text.length : Int) - offset) hc hcd hdn
        have e1 : (nt.length : Int) =
            ((text.length : Int) - offset) +
              (offset + (s.start + offset + (r.length : Int) - (s.«end» + offset))) := by
          omega
        have e2 : ((text.length : Int) - offset) + offset = (text.length : Int) := by omega
        rw [hil, e1, hsh, e2]

/-- Claim C1: for every behaviour of the AllAnonym strategy set's random
source and generators (any `Oracle`, SENSITIVE deletion included) and
every list of spans ordered by ascending start, pairwise non-overlapping
and within the original text's coordinates, a successful `anonymizeSpans`
run returns one emitted span per input span in the same order (labels
preserved, emitted spans ordered), each emitted span's `[start, end)`
slice of the final text equals exactly the replacement recorded for that
span, and the final text outside the emitted spans (before the first,
between consecutive ones, after the last) equals the corresponding
regions of the original text unchanged. -/
theorem claim_C1 (o : Oracle) (spans : List Span) (text : Str) (res : LoopResult)
    (hnn : ∀ s ∈ spans, 0 ≤ s.start)
    (hse : ∀ s ∈ spans, s.start ≤ s.«end»)
    (hub : ∀ s ∈ spans, s.«end» ≤ (text.length : Int))
    (hch : List.Chain' (fun a b => a.«end» ≤ b.start) spans)
    (hrun : anonymizeSpansLoop o spans text 0 0 = some res) :
    anonymizeSpans o spans text = some (res.new_spans, res.text) ∧
    res.new_spans.length = spans.length ∧
    res.repls.length = spans.length ∧
    (∀ i : Nat, (res.new_spans[i]?).map Span.label = (spans[i]?).map Span.label) ∧
    List.Chain' (fun a b => a.«end» ≤ b.start) res.new_spans ∧
    (∀ (i : Nat) (ns0 : Span) (r0 : Str), res.new_spans[i]? = some ns0 →
       res.repls[i]? = some r0 → pySlice res.text ns0.start ns0.«end» = r0) ∧
    (∀ (i : Nat) (ns0 ns1 s0 s1 : Span), res.new_spans[i]? = some ns0 →
       res.new_spans[i + 1]? = some ns1 → spans[i]? = some s0 → spans[i + 1]? = some s1 →
       pySlice res.text ns0.«end» ns1.start = pySlice text s0.«end» s1.start) ∧
    (∀ (s0 ns0 : Span), spans.head? = some s0 → res.new_spans.head? = some ns0 →
       ns0.start = s0.start ∧ pySlice res.text 0 ns0.start = pySlice text 0 s0.start) ∧
    (∀ (s0 ns0 : Span), spans.getLast? = some s0 → res.new_spans.getLast? = some ns0 →
       pySlice res.text ns0.«end» (res.text.length : Int) =
         pySlice text s0.«end» (text.length : Int)) := by
  obtain ⟨l1, l2, l3, l4, l5, l6, l7, l8, l9, l10⟩ :=
    loop_spec o spans text 0 0 res hrun
      (fun s hs => by have := hnn s hs; omega) hse
      (fun s hs => by have := hub s hs; omega) hch
  refine ⟨by rw [anonymizeSpans, hrun]; rfl, l1, l2, l3, l5, l8, ?_, ?_, ?_⟩
  · intro i ns0 ns1 s0 s1 a b c d
    have := l9 i ns0 ns1 s0 s1 a b c d
    simpa using this
  · intro s0 ns0 a b
    have := l7 s0 ns0 a b
    simpa using this
  · intro s0 ns0 a b
    have := l10 s0 ns0 a b
    simpa using this

/-- Witness for C1: the two-PER-span run on "Alice met Bob" under the
concrete oracle whose name generator returns "Alexandra". -/
theorem claim_C1_witness :
    (anonymizeSpansLoop oracleZero [⟨0, 5, "PER"⟩, ⟨10, 13, "PER"⟩] "Alice met Bob".data 0 0 =
      some ⟨[⟨0, 9, "PER"⟩, ⟨14, 23, "PER"⟩], [⟨0, 5, "PER"⟩, ⟨14, 17, "PER"⟩],
            ["Alexandra".data, "Alexandra".data], "Alexandra met Alexandra".data, 2⟩) ∧
    anonymizeSpans oracleZero [⟨0, 5, "PER"⟩, ⟨10, 13, "PER"⟩] "Alice met Bob".data =
      some ([⟨0, 9, "PER"⟩, ⟨14, 23, "PER"⟩], "Alexandra met Alexandra".data) :=
  ⟨by decide,
   (claim_C1 oracleZero [⟨0, 5, "PER"⟩, ⟨10, 13, "PER"⟩] "Alice met Bob".data
      ⟨[⟨0, 9, "PER"⟩, ⟨14, 23, "PER"⟩], [⟨0, 5, "PER"⟩, ⟨14, 17, "PER"⟩],
       ["Alexandra".data, "Alexandra".data], "Alexandra met Alexandra".data, 2⟩
      (by decide) (by decide) (by decide)
      (List.chain'_cons.2 ⟨by decide, List.chain'_singleton _⟩) (by decide)).1⟩

/-- Counterexample to C2 as stated: `anonymizeSpans` mutates the caller's
span records in place (lines 26-27 execute `span["start"] += offset` and
`span["end"] += offset` on the input record itself): after deleting the
six-character SENSITIVE span of "A secret note", the second input span's
record holds {3, 7}, no longer its original {9, 13}. `LoopResult.muts`
records the final value of each caller-supplied span record. -/
theorem claim_C2_counterexample :
    (anonymizeSpansLoop oracleZero [⟨2, 8, "SENSITIVE"⟩, ⟨9, 13, "OTHER"⟩]
        "A secret note".data 0 0).map LoopResult.muts ≠
      some [⟨2, 8, "SENSITIVE"⟩, ⟨9, 13, "OTHER"⟩] := by decide

/-- Claim C2 as amended: the engine does mutate the caller's span records
in place — each record's start and end are shifted by the running offset
accrued from the spans processed before it — but the label is never
touched, every record keeps its original width (start and end move by one
common per-record delta), the first record is unchanged (its offset is 0),
and the recomputed end reflecting the replacement length is delivered only
in the returned copies. -/
theorem claim_C2_amended (o : Oracle) (spans : List Span) (text : Str) (res : LoopResult)
    (hrun : anonymizeSpansLoop o spans text 0 0 = some res) :
    res.muts.length = spans.length ∧
    (∀ (s m : Span), spans.head? = some s → res.muts.head? = some m → m = s) ∧
    (∀ (i : Nat) (s m : Span), spans[i]? = some s → res.muts[i]? = some m →
       m.label = s.label ∧ ∃ d : Int, m.start = s.start + d ∧ m.«end» = s.«end» + d) := by
  obtain ⟨a, b, c⟩ := loop_muts o spans text 0 0 res hrun
  refine ⟨a, ?_, c⟩
  intro s m h1 h2
  have hm := b s m h1 h2
  rw [hm]
  cases s
  simp

/-- Witness for the amended C2: in the deletion run the second caller
record ends as {3, 7}, a common shift of -6 applied to {9, 13}. -/
theorem claim_C2_amended_witness :
    ∃ d : Int, (3 : Int) = 9 + d ∧ (7 : Int) = 13 + d := by
  have h := claim_C2_amended oracleZero [⟨2, 8, "SENSITIVE"⟩, ⟨9, 13, "OTHER"⟩]
      "A secret note".data
      ⟨[⟨2, 2, "SENSITIVE"⟩, ⟨3, 7, "OTHER"⟩], [⟨2, 8, "SENSITIVE"⟩, ⟨3, 7, "OTHER"⟩],
       [[], "aaaa".data], "A  aaaa".data, 4⟩ (by decide)
  obtain ⟨-, -, c⟩ := h
  obtain ⟨-, d, hd1, hd2⟩ := c 1 ⟨9, 13, "OTHER"⟩ ⟨3, 7, "OTHER"⟩ (by decide) (by decide)
  exact ⟨d, hd1, hd2⟩

/-- Claim C3: on a 13-character text with spans {0,5} and {10,13}, if the
first span's replacement has length 9 (delta +4), then the caller's second
span record — the coordinates at which the engine reads and rewrites the
second span after the running offset is applied and before its replacement
is computed — holds start 14 and end 17, not 10 and 13. -/
theorem claim_C3 (o : Oracle) (l1 l2 : String) (text : Str) (res : LoopResult)
    (hlen : text.length = 13)
    (hrun : anonymizeSpansLoop o [⟨0, 5, l1⟩, ⟨10, 13, l2⟩] text 0 0 = some res)
    (hrlen : (res.repls.head?).map List.length = some 9) :
    res.muts[1]? = some ⟨14, 17, l2⟩ := by
  simp only [anonymizeSpansLoop] at hrun
  rcases han : anonymize o ⟨0 + 0, 5 + 0, l1⟩ text 0 with _ | ⟨⟨ns, nt⟩, k1⟩ <;>
    rw [han] at hrun <;> dsimp only at hrun
  · cases hrun
  rcases han2 : anonymize o
      ⟨10 + (0 + (ns.«end» - (5 + 0))), 13 + (0 + (ns.«end» - (5 + 0))), l2⟩ nt k1
      with _ | ⟨⟨ns2, nt2⟩, k2⟩ <;> rw [han2] at hrun <;> dsimp only at hrun
  · cases hrun
  rw [Option.some_inj] at hrun
  subst hrun
  obtain ⟨r, hns, hnt⟩ := anonymize_some o ⟨0 + 0, 5 + 0, l1⟩ text 0 ns nt k1 han
  dsimp only at hns hnt
  subst hns
  dsimp only at hrlen ⊢
  have hnt0 : nt = r ++ pySlice text (5 + 0) (text.length : Int) := by
    have hz : pySlice text 0 (0 + 0) = [] := by
      have e : ((0 : Int) + 0) = 0 := by norm_num
      rw [e]
      exact pySlice_self text 0
    rw [hnt, hz, List.nil_append]
  have hrec_slice : pySlice nt (0 + 0) (0 + 0 + (r.length : Int)) = r := by
    rw [pySlice_eq_seg _ _ _ (by omega) (by omega)]
    have e1 : ((0 : Int) + 0).toNat = 0 := by omega
    have e2 : ((0 : Int) + 0 + (r.length : Int)).toNat = r.length := by omega
    rw [e1, e2, seg_take, hnt0, List.take_left]
  rw [List.head?_cons, Option.map_some', hrec_slice, Option.some_inj] at hrlen
  rw [List.getElem?_cons_succ, List.getElem?_cons_zero, Option.some_inj]
  rw [Span.mk.injEq]
  refine ⟨by omega, by omega, rfl⟩

/-- Witness for C3: the "Alice met Bob" run whose first replacement
"Alexandra" has length 9; the second caller record ends as {14, 17}. -/
theorem claim_C3_witness :
    ("Alice met Bob".data.length = 13) ∧
    ((⟨[⟨0, 9, "PER"⟩, ⟨14, 23, "PER"⟩], [⟨0, 5, "PER"⟩, ⟨14, 17, "PER"⟩],
       ["Alexandra".data, "Alexandra".data], "Alexandra met Alexandra".data, 2⟩ :
        LoopResult).muts[1]? = some ⟨14, 17, "PER"⟩) :=
  ⟨by decide,
   claim_C3 oracleZero "PER" "PER" "Alice met Bob".data
     ⟨[⟨0, 9, "PER"⟩, ⟨14, 23, "PER"⟩], [⟨0, 5, "PER"⟩, ⟨14, 17, "PER"⟩],
      ["Alexandra".data, "Alexandra".data], "Alexandra met Alexandra".data, 2⟩
     (by decide) (by decide) (by decide)⟩
